import Mathlib

/-!
# Config.h of m5-paper-display: the configuration surface

`Config.h` is a C preprocessor header made of guarded definitions: an
`#ifndef NAME` line, a `#define NAME replacement` line, an `#endif` line.

The development embeds the header as the list of its directive lines, in
source order, and runs it through a small interpreter of the preprocessor
directives the header uses (conditional stack, macro table).  The value a
consumer of the header sees for a symbol is the macro expansion of that symbol
in the macro table the header leaves behind; expansion follows the C rule that
a macro is not replaced again inside its own expansion.

Comments are removed before directives are processed (translation phase 3), so
the trailing `// ...` remarks of the header are not part of a replacement list.
Only object-like macros are modelled: the header defines no function-like
macro.
-/

namespace Config

/-- A preprocessing token of a replacement list. -/
inductive Tok where
  | str (s : String)
  | num (n : Nat)
  | ident (name : String)
  | punct (p : String)
  deriving DecidableEq, Repr

/-- The macro table: macro name and replacement list; the first entry of a
name is the one in force. -/
abbrev Env := List (String × List Tok)

/-- The replacement list of `x` in the table, if `x` is defined. -/
def lookup (x : String) : Env → Option (List Tok)
  | [] => none
  | (k, b) :: rest => if k = x then some b else lookup x rest

/-- The table without any definition of `x`. -/
def remove (x : String) : Env → Env
  | [] => []
  | (k, b) :: rest => if k = x then remove x rest else (k, b) :: remove x rest

/-- A directive line of the header. -/
inductive Line where
  | pragmaOnce
  | ifndef (name : String)
  | define (name : String) (body : List Tok)
  | endif
  deriving DecidableEq, Repr

/-- Diagnostics of the directive interpreter. -/
inductive PPError where
  | endifWithoutIf
  | unterminatedConditional
  | redefinition (name : String)
  deriving DecidableEq, Repr

/-- Preprocessor state: the macro table and the stack of open conditionals
(`true` when the group of that conditional is being processed). -/
structure PPState where
  env : Env
  conds : List Bool
  deriving DecidableEq, Repr

/-- Lines are processed only when every open conditional is taken. -/
def PPState.active (st : PPState) : Bool := st.conds.all id

/-- One directive line.
* `#pragma once` concerns repeated inclusion of the file, not the macro table.
* `#ifndef X` opens a conditional, taken when the enclosing groups are active
  and `X` is not defined.
* `#define X body` in an active group defines `X`; defining a macro that is
  already defined with a different replacement list is a constraint violation
  (C11 6.10.3p2), an identical redefinition is accepted.
* `#endif` closes the innermost conditional. -/
def step (st : PPState) : Line → Except PPError PPState
  | .pragmaOnce => .ok st
  | .ifndef x =>
      .ok { st with conds := (st.active && (lookup x st.env).isNone) :: st.conds }
  | .define x body =>
      if st.active then
        match lookup x st.env with
        | none => .ok { st with env := st.env ++ [(x, body)] }
        | some old => if old = body then .ok st else .error (.redefinition x)
      else .ok st
  | .endif =>
      match st.conds with
      | [] => .error .endifWithoutIf
      | _ :: cs => .ok { st with conds := cs }

/-- Process the lines of a file in order; at the end of the file every
conditional must be closed. -/
def preprocess : List Line → PPState → Except PPError PPState
  | [], st => if st.conds.isEmpty then .ok st else .error .unterminatedConditional
  | l :: ls, st =>
      match step st l with
      | .ok st1 => preprocess ls st1
      | .error e => .error e

/-- The directive lines of `Config.h`, in source order. -/
def configH : List Line :=
  [ Line.pragmaOnce,
    -- Wi-Fi credentials
    Line.ifndef "WIFI_SSID", Line.define "WIFI_SSID" [Tok.str "NETWORK_SSID"], Line.endif,
    Line.ifndef "WIFI_PW", Line.define "WIFI_PW" [Tok.str "NETWORK_PASSWORD"], Line.endif,
    -- Schedule API (example)
    Line.ifndef "SCHEDULE_API_BASE",
      Line.define "SCHEDULE_API_BASE" [Tok.str "https://api.meetingroom365.com"], Line.endif,
    -- Room/display identifier
    Line.ifndef "ROOM_ID", Line.define "ROOM_ID" [Tok.str "displaykey"], Line.endif,
    -- Display key alias
    Line.ifndef "DISPLAY_KEY", Line.define "DISPLAY_KEY" [Tok.ident "ROOM_ID"], Line.endif,
    -- Refresh interval seconds
    Line.ifndef "REFRESH_SECONDS", Line.define "REFRESH_SECONDS" [Tok.num 300], Line.endif,
    -- Path to SD config
    Line.ifndef "SD_CONFIG_PATH", Line.define "SD_CONFIG_PATH" [Tok.str "/config.json"], Line.endif,
    -- Optional TTF font paths on SD
    Line.ifndef "FONT_REGULAR_PATH", Line.define "FONT_REGULAR_PATH" [Tok.str "/Inter.ttf"], Line.endif,
    Line.ifndef "FONT_BOLD_PATH", Line.define "FONT_BOLD_PATH" [Tok.str "/InterBold.ttf"], Line.endif,
    -- UI tunables
    Line.ifndef "SCREEN_ROTATION", Line.define "SCREEN_ROTATION" [Tok.num 90], Line.endif,
    Line.ifndef "AVAILABLE_BG_SHADE", Line.define "AVAILABLE_BG_SHADE" [Tok.num 0], Line.endif,
    Line.ifndef "OCCUPIED_BG_SHADE", Line.define "OCCUPIED_BG_SHADE" [Tok.num 3], Line.endif,
    Line.ifndef "BUTTON_FILL_SHADE", Line.define "BUTTON_FILL_SHADE" [Tok.num 1], Line.endif,
    Line.ifndef "BUTTON_PRESSED_SHADE", Line.define "BUTTON_PRESSED_SHADE" [Tok.num 5], Line.endif,
    Line.ifndef "TEXT_COLOR_SHADE", Line.define "TEXT_COLOR_SHADE" [Tok.num 14], Line.endif,
    -- Touch interrupt pin for wake
    Line.ifndef "TOUCH_INT_PIN", Line.define "TOUCH_INT_PIN" [Tok.ident "GPIO_NUM_36"], Line.endif,
    -- Battery indicator
    Line.ifndef "SHOW_BATTERY", Line.define "SHOW_BATTERY" [Tok.num 1], Line.endif,
    -- Debug clock
    Line.ifndef "SHOW_DEBUG_CLOCK", Line.define "SHOW_DEBUG_CLOCK" [Tok.num 1], Line.endif,
    -- Time format
    Line.ifndef "TWENTYFOUR_HOUR", Line.define "TWENTYFOUR_HOUR" [Tok.num 1], Line.endif,
    -- Debug logging
    Line.ifndef "DEBUG_LOGGING", Line.define "DEBUG_LOGGING" [Tok.num 1], Line.endif,
    -- Business hours
    Line.ifndef "ENABLE_BUSINESS_HOURS", Line.define "ENABLE_BUSINESS_HOURS" [Tok.num 1], Line.endif,
    Line.ifndef "BUSINESS_HOURS_START", Line.define "BUSINESS_HOURS_START" [Tok.num 8], Line.endif,
    Line.ifndef "BUSINESS_HOURS_END", Line.define "BUSINESS_HOURS_END" [Tok.num 19], Line.endif,
    Line.ifndef "DEEP_SLEEP_WEEKENDS", Line.define "DEEP_SLEEP_WEEKENDS" [Tok.num 1], Line.endif,
    -- Power optimization toggles
    Line.ifndef "EPD_POWER_OFF_IN_SLEEP", Line.define "EPD_POWER_OFF_IN_SLEEP" [Tok.num 1], Line.endif,
    Line.ifndef "EXTPWR_OFF_IN_SLEEP", Line.define "EXTPWR_OFF_IN_SLEEP" [Tok.num 0], Line.endif ]

/-- Evaluate `Config.h` in a build environment: the macro table the build has
predefined (command-line definitions, earlier headers).  The result is the
macro table after the header, or the diagnostic that stopped it. -/
def evalConfig (env : Env) : Except PPError Env :=
  match preprocess configH { env := env, conds := [] } with
  | .ok st => .ok st.env
  | .error e => .error e

/-- Macro expansion of one token in a table.  An identifier that names a macro
is replaced by its replacement list, which is expanded in turn with that macro
taken out of the table (a macro is never replaced inside its own expansion).
Every other token stands for itself.  The first argument bounds the nesting
depth; a depth of the table's length is never exceeded (`expandTok_fuel`). -/
def expandTok : Nat → Env → Tok → List Tok
  | fuel + 1, env, .ident x =>
      match lookup x env with
      | none => [.ident x]
      | some body => body.flatMap (expandTok fuel (remove x env))
  | _, _, t => [t]

/-- What a use of the symbol `name` expands to in a macro table. -/
def expand (env : Env) (name : String) : List Tok :=
  expandTok env.length env (.ident name)

/-- The effective value of `name` for code that includes `Config.h` in the
build environment `env`: the expansion of `name` after the header has been
evaluated; `none` when the header stops with a diagnostic. -/
def effective (env : Env) (name : String) : Option (List Tok) :=
  match evalConfig env with
  | .ok e => some (expand e name)
  | .error _ => none

/-- The replacement list `name` is defined with after the header has been
evaluated in `env`. -/
def definition (env : Env) (name : String) : Option (List Tok) :=
  match evalConfig env with
  | .ok e => lookup name e
  | .error _ => none

/-- The symbols `Config.h` defines, in source order. -/
def configSymbols : List String :=
  [ "WIFI_SSID", "WIFI_PW", "SCHEDULE_API_BASE", "ROOM_ID", "DISPLAY_KEY",
    "REFRESH_SECONDS", "SD_CONFIG_PATH", "FONT_REGULAR_PATH", "FONT_BOLD_PATH",
    "SCREEN_ROTATION", "AVAILABLE_BG_SHADE", "OCCUPIED_BG_SHADE", "BUTTON_FILL_SHADE",
    "BUTTON_PRESSED_SHADE", "TEXT_COLOR_SHADE", "TOUCH_INT_PIN", "SHOW_BATTERY",
    "SHOW_DEBUG_CLOCK", "TWENTYFOUR_HOUR", "DEBUG_LOGGING", "ENABLE_BUSINESS_HOURS",
    "BUSINESS_HOURS_START", "BUSINESS_HOURS_END", "DEEP_SLEEP_WEEKENDS",
    "EPD_POWER_OFF_IN_SLEEP", "EXTPWR_OFF_IN_SLEEP" ]

/-- The guarded definitions of the header as a table: name and default
replacement list of every `#define` line, in source order. -/
def defaults : Env :=
  configH.filterMap fun l =>
    match l with
    | Line.define x b => some (x, b)
    | _ => none

/-- Define `x` as `b` unless `x` is already defined: the net effect of one
`#ifndef x / #define x b / #endif` group. -/
def defineIfAbsent (env : Env) (d : String × List Tok) : Env :=
  match lookup d.1 env with
  | none => env ++ [d]
  | some _ => env

/-- The table after all guarded definitions of `ds` have been applied. -/
def applyDefaults (ds : Env) (env : Env) : Env := ds.foldl defineIfAbsent env

/-- The build environment `env` with `name` additionally predefined as `v`
(a definition given later for the same name replaces the earlier one). -/
def predefine (name : String) (v : List Tok) (env : Env) : Env :=
  (name, v) :: remove name env

/-- The build environment predefines none of the symbols of `Config.h`. -/
def NoOverrides (env : Env) : Prop := ∀ p ∈ configSymbols, lookup p env = none

instance (env : Env) : Decidable (NoOverrides env) := by
  unfold NoOverrides; infer_instance

/-- No replacement list of the build environment refers to the symbol `x`. -/
def Unmentioned (x : String) (env : Env) : Prop := ∀ d ∈ env, Tok.ident x ∉ d.2

instance (x : String) (env : Env) : Decidable (Unmentioned x env) := by
  unfold Unmentioned; infer_instance

/-- A token the preprocessor leaves alone after the header: a literal, or an
identifier that names neither a macro of the build environment nor a symbol of
`Config.h`. -/
def Tok.isFixed (env : Env) : Tok → Bool
  | Tok.ident z => (lookup z env).isNone && !(decide (z ∈ configSymbols))
  | _ => true

/-- The replacement list `v` is a value: a string, a number, a platform
identifier such as a pin name, with nothing in it left to replace. -/
def IsValue (env : Env) (v : List Tok) : Prop := ∀ t ∈ v, Tok.isFixed env t = true

instance (env : Env) (v : List Tok) : Decidable (IsValue env v) := by
  unfold IsValue; infer_instance

/-- The number a symbol stands for, when its effective value is one integer
token. -/
def number (env : Env) (name : String) : Option Nat :=
  match effective env name with
  | some [Tok.num n] => some n
  | _ => none

/-- The symbols the header documents as 0/1 switches, with the comment that
says so:
`SHOW_BATTERY` "set 0 to hide battery indicator";
`SHOW_DEBUG_CLOCK` "set 1 to show a small clock for debugging";
`TWENTYFOUR_HOUR` "24-hour (1) or 12-hour with AM/PM (0)";
`DEBUG_LOGGING` "0=minimal (errors only), 1=verbose (all operations)";
`ENABLE_BUSINESS_HOURS` "1=enable business hours sleep, 0=always active";
`DEEP_SLEEP_WEEKENDS` "1=deep sleep Sat/Sun, 0=stay active on weekends";
`EPD_POWER_OFF_IN_SLEEP` and `EXTPWR_OFF_IN_SLEEP` "Power optimization toggles". -/
def toggles : List String :=
  [ "SHOW_BATTERY", "SHOW_DEBUG_CLOCK", "TWENTYFOUR_HOUR", "DEBUG_LOGGING",
    "ENABLE_BUSINESS_HOURS", "DEEP_SLEEP_WEEKENDS", "EPD_POWER_OFF_IN_SLEEP",
    "EXTPWR_OFF_IN_SLEEP" ]

/-- The grey shades of the "UI tunables" section of the header. -/
def shades : List String :=
  [ "AVAILABLE_BG_SHADE", "OCCUPIED_BG_SHADE", "BUTTON_FILL_SHADE",
    "BUTTON_PRESSED_SHADE", "TEXT_COLOR_SHADE" ]

/-- How many symbols of `Config.h` are 0/1 switches. -/
def toggleCount : Nat := (configSymbols.filter fun p => decide (p ∈ toggles)).length

/-- The identifiers occurring in a replacement list. -/
def identsOf : List Tok → List String
  | [] => []
  | Tok.ident z :: rest => z :: identsOf rest
  | _ :: rest => identsOf rest

/-! ## The macro table -/

theorem lookup_append_single (y : String) (env : Env) (d : String × List Tok) :
    lookup y (env ++ [d]) =
      match lookup y env with
      | some v => some v
      | none => if d.1 = y then some d.2 else none := by
  induction env with
  | nil => obtain ⟨k, b⟩ := d; simp [lookup]
  | cons e rest ih =>
    obtain ⟨k, b⟩ := e
    by_cases h : k = y
    · simp [lookup, h]
    · simp [lookup, h, ih]

theorem lookup_defineIfAbsent (y : String) (env : Env) (d : String × List Tok) :
    lookup y (defineIfAbsent env d) =
      match lookup y env with
      | some v => some v
      | none => if d.1 = y then some d.2 else none := by
  unfold defineIfAbsent
  cases hx : lookup d.1 env with
  | none => simp [lookup_append_single]
  | some v =>
    cases hy : lookup y env with
    | some w => simp
    | none =>
      by_cases h : d.1 = y
      · rw [h] at hx; rw [hx] at hy; cases hy
      · simp [h]

theorem lookup_applyDefaults (y : String) (ds env : Env) :
    lookup y (applyDefaults ds env) =
      match lookup y env with
      | some v => some v
      | none => lookup y ds := by
  induction ds generalizing env with
  | nil => cases h : lookup y env <;> simp [applyDefaults, lookup, h]
  | cons d rest ih =>
    obtain ⟨k, b⟩ := d
    have hstep : applyDefaults ((k, b) :: rest) env
        = applyDefaults rest (defineIfAbsent env (k, b)) := rfl
    rw [hstep, ih, lookup_defineIfAbsent]
    cases h : lookup y env with
    | some v => simp
    | none =>
      by_cases hk : k = y
      · simp [hk, lookup]
      · simp [hk, lookup]

theorem lookup_remove (x y : String) (env : Env) :
    lookup y (remove x env) = if x = y then none else lookup y env := by
  induction env with
  | nil => simp [lookup, remove]
  | cons e rest ih =>
    obtain ⟨k, b⟩ := e
    by_cases hkx : k = x
    · subst hkx
      by_cases hxy : k = y
      · simpa [remove, hxy] using ih
      · simpa [remove, hxy, lookup] using ih
    · by_cases hky : k = y
      · subst hky
        have hxy : ¬ x = k := fun h => hkx h.symm
        simp [remove, hkx, lookup, hxy]
      · simpa [remove, hkx, lookup, hky] using ih

theorem remove_length_le (x : String) (env : Env) : (remove x env).length ≤ env.length := by
  induction env with
  | nil => simp [remove]
  | cons e rest ih =>
    obtain ⟨k, b⟩ := e
    by_cases hkx : k = x
    · simp [remove, hkx]; omega
    · simp [remove, hkx]; omega

theorem remove_length_lt (x : String) (env : Env) (b : List Tok)
    (h : lookup x env = some b) : (remove x env).length < env.length := by
  induction env with
  | nil => simp [lookup] at h
  | cons e rest ih =>
    obtain ⟨k, c⟩ := e
    by_cases hkx : k = x
    · have := remove_length_le x rest
      simp [remove, hkx]; omega
    · have h2 : lookup x rest = some b := by simpa [lookup, hkx] using h
      have := ih h2
      simp [remove, hkx]; omega

theorem mem_of_lookup (x : String) (env : Env) (b : List Tok)
    (h : lookup x env = some b) : (x, b) ∈ env := by
  induction env with
  | nil => simp [lookup] at h
  | cons e rest ih =>
    obtain ⟨k, c⟩ := e
    by_cases hkx : k = x
    · simp [lookup, hkx] at h
      simp [hkx, h]
    · have h2 : lookup x rest = some b := by simpa [lookup, hkx] using h
      exact List.mem_cons_of_mem _ (ih h2)

/-! ## The directive interpreter on the header -/

theorem preprocess_guard (x : String) (b : List Tok) (rest : List Line) (env : Env) :
    preprocess (Line.ifndef x :: Line.define x b :: Line.endif :: rest) ⟨env, []⟩
      = preprocess rest ⟨defineIfAbsent env (x, b), []⟩ := by
  cases h : lookup x env with
  | none => simp [preprocess, step, PPState.active, defineIfAbsent, h]
  | some v => simp [preprocess, step, PPState.active, defineIfAbsent, h]

theorem preprocess_pragmaOnce (rest : List Line) (st : PPState) :
    preprocess (Line.pragmaOnce :: rest) st = preprocess rest st := by
  simp [preprocess, step]

theorem defaults_eq : defaults =
    [ ("WIFI_SSID", [Tok.str "NETWORK_SSID"]), ("WIFI_PW", [Tok.str "NETWORK_PASSWORD"]),
      ("SCHEDULE_API_BASE", [Tok.str "https://api.meetingroom365.com"]),
      ("ROOM_ID", [Tok.str "displaykey"]), ("DISPLAY_KEY", [Tok.ident "ROOM_ID"]),
      ("REFRESH_SECONDS", [Tok.num 300]), ("SD_CONFIG_PATH", [Tok.str "/config.json"]),
      ("FONT_REGULAR_PATH", [Tok.str "/Inter.ttf"]), ("FONT_BOLD_PATH", [Tok.str "/InterBold.ttf"]),
      ("SCREEN_ROTATION", [Tok.num 90]), ("AVAILABLE_BG_SHADE", [Tok.num 0]),
      ("OCCUPIED_BG_SHADE", [Tok.num 3]), ("BUTTON_FILL_SHADE", [Tok.num 1]),
      ("BUTTON_PRESSED_SHADE", [Tok.num 5]), ("TEXT_COLOR_SHADE", [Tok.num 14]),
      ("TOUCH_INT_PIN", [Tok.ident "GPIO_NUM_36"]), ("SHOW_BATTERY", [Tok.num 1]),
      ("SHOW_DEBUG_CLOCK", [Tok.num 1]), ("TWENTYFOUR_HOUR", [Tok.num 1]),
      ("DEBUG_LOGGING", [Tok.num 1]), ("ENABLE_BUSINESS_HOURS", [Tok.num 1]),
      ("BUSINESS_HOURS_START", [Tok.num 8]), ("BUSINESS_HOURS_END", [Tok.num 19]),
      ("DEEP_SLEEP_WEEKENDS", [Tok.num 1]), ("EPD_POWER_OFF_IN_SLEEP", [Tok.num 1]),
      ("EXTPWR_OFF_IN_SLEEP", [Tok.num 0]) ] := by
  rfl

theorem defaults_names : defaults.map Prod.fst = configSymbols := by
  rfl

/-- The header never stops with a diagnostic, and its result is the build
environment extended by the default of every symbol the build left undefined. -/
theorem evalConfig_eq (env : Env) : evalConfig env = .ok (applyDefaults defaults env) := by
  unfold evalConfig configH
  simp only [preprocess_pragmaOnce, preprocess_guard]
  rw [defaults_eq]
  simp [preprocess, applyDefaults]

/-! ## Macro expansion -/

theorem expandTok_not_ident (f : Nat) (env : Env) (t : Tok)
    (h : ∀ z, t ≠ Tok.ident z) : expandTok f env t = [t] := by
  cases f with
  | zero => simp [expandTok]
  | succ n =>
    cases t with
    | ident z => exact absurd rfl (h z)
    | str s => simp [expandTok]
    | num n => simp [expandTok]
    | punct p => simp [expandTok]

theorem expandTok_undefined (f : Nat) (env : Env) (x : String)
    (h : lookup x env = none) : expandTok f env (Tok.ident x) = [Tok.ident x] := by
  cases f with
  | zero => simp [expandTok]
  | succ n => simp [expandTok, h]

theorem expandTok_defined (f : Nat) (env : Env) (x : String) (b : List Tok)
    (h : lookup x env = some b) :
    expandTok (f + 1) env (Tok.ident x) = b.flatMap (expandTok f (remove x env)) := by
  simp [expandTok, h]

theorem flatMap_congr_mem {α β : Type} (l : List α) (f g : α → List β)
    (h : ∀ a ∈ l, f a = g a) : l.flatMap f = l.flatMap g := by
  induction l with
  | nil => rfl
  | cons a rest ih =>
    simp only [List.flatMap_cons]
    rw [h a (List.mem_cons_self a rest), ih (fun c hc => h c (List.mem_cons_of_mem a hc))]

/-- The depth bound of `expandTok` is never the reason an expansion stops: any
two bounds of at least the table's length give the same expansion. -/
theorem expandTok_fuel (f g : Nat) (env : Env) (t : Tok)
    (hf : env.length ≤ f) (hg : env.length ≤ g) :
    expandTok f env t = expandTok g env t := by
  induction f generalizing g env t with
  | zero =>
    have hnil : env = [] := List.length_eq_zero.mp (Nat.le_zero.mp hf)
    subst hnil
    cases t with
    | ident z => rw [expandTok_undefined 0 [] z rfl, expandTok_undefined g [] z rfl]
    | str s => rw [expandTok_not_ident 0 _ _ (by simp), expandTok_not_ident g _ _ (by simp)]
    | num n => rw [expandTok_not_ident 0 _ _ (by simp), expandTok_not_ident g _ _ (by simp)]
    | punct p => rw [expandTok_not_ident 0 _ _ (by simp), expandTok_not_ident g _ _ (by simp)]
  | succ n ih =>
    cases t with
    | str s => rw [expandTok_not_ident (n + 1) _ _ (by simp), expandTok_not_ident g _ _ (by simp)]
    | num m => rw [expandTok_not_ident (n + 1) _ _ (by simp), expandTok_not_ident g _ _ (by simp)]
    | punct p => rw [expandTok_not_ident (n + 1) _ _ (by simp), expandTok_not_ident g _ _ (by simp)]
    | ident z =>
      cases hz : lookup z env with
      | none => rw [expandTok_undefined _ _ _ hz, expandTok_undefined _ _ _ hz]
      | some b =>
        have hlt := remove_length_lt z env b hz
        cases g with
        | zero => omega
        | succ m =>
          rw [expandTok_defined _ _ _ _ hz, expandTok_defined _ _ _ _ hz]
          exact flatMap_congr_mem b _ _ (fun t _ => ih m (remove z env) t (by omega) (by omega))

/-- Two tables expand a token alike when they agree on a set of names that is
closed under the replacement lists and contains the token. -/
theorem expandTok_congr (Good : String → Prop) (f : Nat) (e0 e1 : Env) (t : Tok)
    (hagree : ∀ y, Good y → lookup y e0 = lookup y e1)
    (hclosed : ∀ y b, Good y → lookup y e0 = some b → ∀ z, Tok.ident z ∈ b → Good z)
    (ht : ∀ z, t = Tok.ident z → Good z) :
    expandTok f e0 t = expandTok f e1 t := by
  induction f generalizing e0 e1 t with
  | zero => simp [expandTok]
  | succ n ih =>
    cases t with
    | str s => rw [expandTok_not_ident _ e0 _ (by simp), expandTok_not_ident _ e1 _ (by simp)]
    | num m => rw [expandTok_not_ident _ e0 _ (by simp), expandTok_not_ident _ e1 _ (by simp)]
    | punct p => rw [expandTok_not_ident _ e0 _ (by simp), expandTok_not_ident _ e1 _ (by simp)]
    | ident x =>
      have hx : Good x := ht x rfl
      cases h0 : lookup x e0 with
      | none =>
        have h1 : lookup x e1 = none := by rw [← hagree x hx]; exact h0
        rw [expandTok_undefined _ _ _ h0, expandTok_undefined _ _ _ h1]
      | some b =>
        have h1 : lookup x e1 = some b := by rw [← hagree x hx]; exact h0
        rw [expandTok_defined _ _ _ _ h0, expandTok_defined _ _ _ _ h1]
        apply flatMap_congr_mem
        intro t ht2
        apply ih
        · intro y hy
          rw [lookup_remove, lookup_remove, hagree y hy]
        · intro y c hy hc z hz
          rw [lookup_remove] at hc
          by_cases hxy : x = y
          · simp [hxy] at hc
          · simp only [hxy, if_false] at hc
            exact hclosed y c hy hc z hz
        · intro z hz
          subst hz
          exact hclosed x b hx h0 z ht2

/-- The expansion of a defined symbol: its replacement list, expanded with the
symbol itself taken out of the table. -/
theorem expand_defined (env : Env) (x : String) (b : List Tok)
    (h : lookup x env = some b) :
    expand env x = b.flatMap (expandTok (env.length - 1) (remove x env)) := by
  have hlt := remove_length_lt x env b h
  unfold expand
  obtain ⟨n, hn⟩ : ∃ n, env.length = n + 1 := ⟨env.length - 1, by omega⟩
  rw [hn, expandTok_defined _ _ _ _ h]
  rfl

/-- A replacement list none of whose identifiers is a macro of the table is
left as it is. -/
theorem flatMap_expandTok_closed (f : Nat) (env : Env) (v : List Tok)
    (h : ∀ z, Tok.ident z ∈ v → lookup z env = none) :
    v.flatMap (expandTok f env) = v := by
  induction v with
  | nil => rfl
  | cons t rest ih =>
    have hrest := ih (fun z hz => h z (List.mem_cons_of_mem t hz))
    simp only [List.flatMap_cons, hrest]
    cases t with
    | ident z =>
      rw [expandTok_undefined _ _ _ (h z (List.mem_cons_self _ _))]
      rfl
    | str s => rw [expandTok_not_ident _ _ _ (by simp)]; rfl
    | num m => rw [expandTok_not_ident _ _ _ (by simp)]; rfl
    | punct p => rw [expandTok_not_ident _ _ _ (by simp)]; rfl

/-! ## Effective values after the header -/

theorem effective_eq (env : Env) (x : String) :
    effective env x = some (expand (applyDefaults defaults env) x) := by
  unfold effective
  rw [evalConfig_eq]

theorem definition_eq (env : Env) (x : String) :
    definition env x = lookup x (applyDefaults defaults env) := by
  unfold definition
  rw [evalConfig_eq]

theorem lookup_table_of_env (env : Env) (x : String) (v : List Tok)
    (h : lookup x env = some v) : lookup x (applyDefaults defaults env) = some v := by
  rw [lookup_applyDefaults, h]

theorem lookup_table_default (env : Env) (x : String)
    (h : lookup x env = none) : lookup x (applyDefaults defaults env) = lookup x defaults := by
  rw [lookup_applyDefaults, h]

/-- The recursion equation of expansion, free of the depth bound. -/
theorem expand_unfold (e : Env) (x : String) (b : List Tok) (h : lookup x e = some b) :
    expand e x = b.flatMap (expandTok (remove x e).length (remove x e)) := by
  rw [expand_defined e x b h]
  have hlt := remove_length_lt x e b h
  exact flatMap_congr_mem b _ _
    (fun t _ => expandTok_fuel _ _ (remove x e) t (by omega) (Nat.le_refl _))

theorem mem_identsOf (z : String) (b : List Tok) : z ∈ identsOf b ↔ Tok.ident z ∈ b := by
  induction b with
  | nil => simp [identsOf]
  | cons t rest ih =>
    cases t with
    | ident y => simp [identsOf, ih]
    | str s => simp [identsOf, ih]
    | num n => simp [identsOf, ih]
    | punct p => simp [identsOf, ih]

theorem defaults_idents_all : ∀ d ∈ defaults, ∀ z ∈ identsOf d.2,
    (d.1 = "DISPLAY_KEY" ∧ z = "ROOM_ID") ∨ (d.1 = "TOUCH_INT_PIN" ∧ z = "GPIO_NUM_36") := by
  decide

/-- The only defaults that are not literals: the alias `DISPLAY_KEY`, defined
as `ROOM_ID`, and `TOUCH_INT_PIN`, defined as the platform name `GPIO_NUM_36`. -/
theorem defaults_idents (y z : String) (b : List Tok)
    (h : lookup y defaults = some b) (hz : Tok.ident z ∈ b) :
    (y = "DISPLAY_KEY" ∧ z = "ROOM_ID") ∨ (y = "TOUCH_INT_PIN" ∧ z = "GPIO_NUM_36") :=
  defaults_idents_all (y, b) (mem_of_lookup y defaults b h) z ((mem_identsOf z b).mpr hz)

theorem lookup_defaults_config (y : String) (b : List Tok)
    (h : lookup y defaults = some b) : y ∈ configSymbols := by
  rw [← defaults_names]
  exact List.mem_map.mpr ⟨(y, b), mem_of_lookup y defaults b h, rfl⟩

theorem lookup_defaults_none (y : String) (h : y ∉ configSymbols) :
    lookup y defaults = none := by
  cases hl : lookup y defaults with
  | none => rfl
  | some b => exact absurd (lookup_defaults_config y b hl) h

theorem lookup_defaults_isSome_all : ∀ p ∈ configSymbols, (lookup p defaults).isSome = true := by
  decide

theorem lookup_defaults_some (p : String) (hp : p ∈ configSymbols) :
    ∃ b, lookup p defaults = some b :=
  Option.isSome_iff_exists.mp (lookup_defaults_isSome_all p hp)

/-- After the header every symbol of `Config.h` is defined. -/
theorem lookup_table_some (env : Env) (p : String) (hp : p ∈ configSymbols) :
    ∃ b, lookup p (applyDefaults defaults env) = some b := by
  cases h : lookup p env with
  | some v => exact ⟨v, lookup_table_of_env env p v h⟩
  | none =>
    obtain ⟨b, hb⟩ := lookup_defaults_some p hp
    exact ⟨b, by rw [lookup_table_default env p h, hb]⟩

/-- A symbol whose replacement list has nothing left to replace expands to
that list. -/
theorem effective_of_closed (env : Env) (x : String) (v : List Tok)
    (h : lookup x (applyDefaults defaults env) = some v)
    (hc : ∀ z, Tok.ident z ∈ v → lookup z (remove x (applyDefaults defaults env)) = none) :
    effective env x = some v := by
  rw [effective_eq, expand_unfold _ x v h, flatMap_expandTok_closed _ _ v hc]

theorem isFixed_ident (env : Env) (z : String) (h : Tok.isFixed env (Tok.ident z) = true) :
    lookup z env = none ∧ z ∉ configSymbols := by
  simp only [Tok.isFixed, Bool.and_eq_true, Option.isNone_iff_eq_none, Bool.not_eq_true',
    decide_eq_false_iff_not] at h
  exact h

/-- A value of the build environment is not touched by the table the header
leaves behind. -/
theorem isValue_closed (env : Env) (x : String) (v : List Tok) (hv : IsValue env v) :
    ∀ z, Tok.ident z ∈ v → lookup z (remove x (applyDefaults defaults env)) = none := by
  intro z hz
  obtain ⟨h1, h2⟩ := isFixed_ident env z (hv _ hz)
  rw [lookup_remove]
  by_cases hxz : x = z
  · simp [hxz]
  · simp only [hxz, if_false]
    rw [lookup_table_default env z h1]
    exact lookup_defaults_none z h2

/-- A predefined value is the effective value. -/
theorem effective_predefined (env : Env) (p : String) (v : List Tok)
    (h : lookup p env = some v) (hv : IsValue env v) : effective env p = some v :=
  effective_of_closed env p v (lookup_table_of_env env p v h) (isValue_closed env p v hv)

/-- A literal default is the effective value of a symbol the build left
undefined. -/
theorem effective_default (env : Env) (p : String) (b : List Tok)
    (h : lookup p env = none) (hb : lookup p defaults = some b)
    (hlit : identsOf b = []) : effective env p = some b := by
  apply effective_of_closed env p b (by rw [lookup_table_default env p h, hb])
  intro z hz
  have := (mem_identsOf z b).mpr hz
  rw [hlit] at this
  cases this

/-- The alias: when `DISPLAY_KEY` is left to the header and `ROOM_ID` ends up
with the closed replacement list `v`, `DISPLAY_KEY` expands to `v`. -/
theorem effective_alias_of_closed (env : Env) (v : List Tok)
    (hDK : lookup "DISPLAY_KEY" env = none)
    (hR : lookup "ROOM_ID" (applyDefaults defaults env) = some v)
    (hc : ∀ z, Tok.ident z ∈ v →
      lookup z (remove "ROOM_ID" (remove "DISPLAY_KEY" (applyDefaults defaults env))) = none) :
    effective env "DISPLAY_KEY" = some v := by
  have hD : lookup "DISPLAY_KEY" (applyDefaults defaults env) = some [Tok.ident "ROOM_ID"] := by
    rw [lookup_table_default env _ hDK]; rfl
  have hR2 : lookup "ROOM_ID" (remove "DISPLAY_KEY" (applyDefaults defaults env)) = some v := by
    rw [lookup_remove, if_neg (by decide)]; exact hR
  have h2 := expand_unfold _ "ROOM_ID" v hR2
  rw [flatMap_expandTok_closed _ _ v hc] at h2
  rw [effective_eq, expand_unfold _ "DISPLAY_KEY" _ hD]
  simp only [List.flatMap_cons, List.flatMap_nil, List.append_nil]
  exact congrArg some h2

/-- The wake pin: left to the header, `TOUCH_INT_PIN` expands to the platform
name `GPIO_NUM_36`, provided the platform does not make that name a macro. -/
theorem effective_pin (env : Env) (hT : lookup "TOUCH_INT_PIN" env = none)
    (hG : lookup "GPIO_NUM_36" env = none) :
    effective env "TOUCH_INT_PIN" = some [Tok.ident "GPIO_NUM_36"] := by
  apply effective_of_closed env _ _ (by rw [lookup_table_default env _ hT]; rfl)
  intro z hz
  have hzeq : z = "GPIO_NUM_36" := by simpa using hz
  subst hzeq
  rw [lookup_remove, if_neg (by decide), lookup_table_default env _ hG]
  exact lookup_defaults_none _ (by decide)

theorem number_of_effective (env : Env) (p : String) (n : Nat)
    (h : effective env p = some [Tok.num n]) : number env p = some n := by
  simp [number, h]

theorem number_default (env : Env) (p : String) (n : Nat)
    (h : lookup p env = none) (hb : lookup p defaults = some [Tok.num n]) :
    number env p = some n :=
  number_of_effective env p n (effective_default env p _ h hb rfl)

/-- Where a replacement list of the final table comes from: the build
environment, or the default of the header. -/
theorem table_body_cases (env : Env) (y : String) (b : List Tok)
    (h : lookup y (applyDefaults defaults env) = some b) :
    (y, b) ∈ env ∨ (lookup y env = none ∧ lookup y defaults = some b) := by
  rw [lookup_applyDefaults] at h
  cases hy : lookup y env with
  | some w =>
    rw [hy] at h
    simp only [Option.some.injEq] at h
    subst h
    exact Or.inl (mem_of_lookup y env w hy)
  | none =>
    rw [hy] at h
    exact Or.inr ⟨rfl, h⟩

theorem lookup_predefine_self (env : Env) (p : String) (v : List Tok) :
    lookup p (predefine p v env) = some v := by
  simp [predefine, lookup]

theorem lookup_predefine_ne (env : Env) (p y : String) (v : List Tok) (h : y ≠ p) :
    lookup y (predefine p v env) = lookup y env := by
  have h2 : ¬ p = y := fun e => h e.symm
  simp [predefine, lookup, h2, lookup_remove]

/-- The alias in general: when `DISPLAY_KEY` is left to the header and no
predefinition refers to it, it expands to whatever `ROOM_ID` expands to. -/
theorem effective_alias (env : Env) (hDK : lookup "DISPLAY_KEY" env = none)
    (hment : Unmentioned "DISPLAY_KEY" env) :
    effective env "DISPLAY_KEY" = effective env "ROOM_ID" := by
  have hD : lookup "DISPLAY_KEY" (applyDefaults defaults env) = some [Tok.ident "ROOM_ID"] := by
    rw [lookup_table_default env _ hDK]; rfl
  rw [effective_eq, effective_eq, expand_unfold _ "DISPLAY_KEY" _ hD]
  simp only [List.flatMap_cons, List.flatMap_nil, List.append_nil]
  refine congrArg some ?_
  unfold expand
  rw [expandTok_fuel _ (applyDefaults defaults env).length _ _ (Nat.le_refl _)
    (remove_length_le _ _)]
  apply expandTok_congr (fun y => y ≠ "DISPLAY_KEY")
  · intro y hy
    rw [lookup_remove, if_neg (fun e => hy e.symm)]
  · intro y b hy hb z hz
    rw [lookup_remove, if_neg (fun e => hy e.symm)] at hb
    rcases table_body_cases env y b hb with hmem | ⟨_, hdef⟩
    · intro hzeq
      subst hzeq
      exact hment (y, b) hmem hz
    · rcases defaults_idents y z b hdef hz with ⟨_, hz2⟩ | ⟨_, hz2⟩ <;> subst hz2 <;> decide
  · intro z hz
    simp only [Tok.ident.injEq] at hz
    subst hz
    decide

/-- Frame property of one more predefinition: when no predefinition refers to
`P` (nor to the alias `DISPLAY_KEY` when `P` is `ROOM_ID`), predefining `P`
changes the expansion of no other symbol, but for `DISPLAY_KEY` when `P` is
`ROOM_ID` and `DISPLAY_KEY` is left to the header. -/
theorem effective_frame (env : Env) (P Q : String) (v : List Tok)
    (hP : P ∈ configSymbols) (hne : Q ≠ P) (hrefs : Unmentioned P env)
    (halias : P = "ROOM_ID" → Unmentioned "DISPLAY_KEY" env)
    (hexc : ¬ (P = "ROOM_ID" ∧ Q = "DISPLAY_KEY" ∧ lookup "DISPLAY_KEY" env = none)) :
    effective (predefine P v env) Q = effective env Q := by
  rw [effective_eq, effective_eq]
  refine congrArg some ?_
  unfold expand
  rw [expandTok_fuel _ (max (applyDefaults defaults (predefine P v env)).length
      (applyDefaults defaults env).length) _ _ (Nat.le_refl _) (Nat.le_max_left _ _),
    expandTok_fuel (applyDefaults defaults env).length
      (max (applyDefaults defaults (predefine P v env)).length
      (applyDefaults defaults env).length) _ _ (Nat.le_refl _) (Nat.le_max_right _ _)]
  symm
  apply expandTok_congr
    (fun y => y ≠ P ∧ (P = "ROOM_ID" → lookup "DISPLAY_KEY" env = none → y ≠ "DISPLAY_KEY"))
  · intro y hy
    rw [lookup_applyDefaults, lookup_applyDefaults, lookup_predefine_ne env P y v hy.1]
  · intro y b hy hb z hz
    rcases table_body_cases env y b hb with hmem | ⟨hnone, hdef⟩
    · refine ⟨fun e => ?_, fun hPR _ e => ?_⟩
      · subst e
        exact hrefs (y, b) hmem hz
      · subst e
        exact halias hPR (y, b) hmem hz
    · rcases defaults_idents y z b hdef hz with ⟨hy2, hz2⟩ | ⟨_, hz2⟩
      · subst hy2; subst hz2
        have hPR : P ≠ "ROOM_ID" := fun e => hy.2 e hnone rfl
        exact ⟨fun e => hPR e.symm, fun e => absurd e hPR⟩
      · subst hz2
        exact ⟨fun e => absurd (e ▸ hP) (by decide), fun _ _ => by decide⟩
  · intro z hz
    simp only [Tok.ident.injEq] at hz
    subst hz
    exact ⟨hne, fun hPR hDK e => hexc ⟨hPR, e, hDK⟩⟩

theorem toggle_defaults : ∀ t ∈ toggles,
    lookup t defaults = some [Tok.num 0] ∨ lookup t defaults = some [Tok.num 1] := by
  decide

/-- A table in which every name of `ds` is defined is left as it is. -/
theorem applyDefaults_fixed (ds env : Env) (h : ∀ d ∈ ds, ∃ b, lookup d.1 env = some b) :
    applyDefaults ds env = env := by
  induction ds with
  | nil => rfl
  | cons d rest ih =>
    obtain ⟨b, hb⟩ := h d (List.mem_cons_self _ _)
    have hstep : applyDefaults (d :: rest) env = applyDefaults rest (defineIfAbsent env d) := rfl
    have hd : defineIfAbsent env d = env := by simp [defineIfAbsent, hb]
    rw [hstep, hd]
    exact ih (fun c hc => h c (List.mem_cons_of_mem _ hc))

theorem applyDefaults_idem (env : Env) :
    applyDefaults defaults (applyDefaults defaults env) = applyDefaults defaults env := by
  apply applyDefaults_fixed
  intro d hd
  apply lookup_table_some
  rw [← defaults_names]
  exact List.mem_map.mpr ⟨d, hd, rfl⟩

/-! ## The claims -/

/-- C1. When the build environment predefines none of the symbols of
`Config.h`, the effective value of every parameter is the documented default.
The wake pin `TOUCH_INT_PIN` is defined as the platform's symbolic pin 36,
`GPIO_NUM_36`; that name is declared by the platform, outside the repository,
and is what `TOUCH_INT_PIN` expands to when the platform declares it as a
constant and not as a macro. -/
theorem defaults_without_overrides (env : Env) (h : NoOverrides env) :
    effective env "WIFI_SSID" = some [Tok.str "NETWORK_SSID"] ∧
    effective env "WIFI_PW" = some [Tok.str "NETWORK_PASSWORD"] ∧
    effective env "SCHEDULE_API_BASE" = some [Tok.str "https://api.meetingroom365.com"] ∧
    effective env "ROOM_ID" = some [Tok.str "displaykey"] ∧
    effective env "DISPLAY_KEY" = some [Tok.str "displaykey"] ∧
    effective env "REFRESH_SECONDS" = some [Tok.num 300] ∧
    effective env "SD_CONFIG_PATH" = some [Tok.str "/config.json"] ∧
    effective env "FONT_REGULAR_PATH" = some [Tok.str "/Inter.ttf"] ∧
    effective env "FONT_BOLD_PATH" = some [Tok.str "/InterBold.ttf"] ∧
    effective env "SCREEN_ROTATION" = some [Tok.num 90] ∧
    effective env "AVAILABLE_BG_SHADE" = some [Tok.num 0] ∧
    effective env "OCCUPIED_BG_SHADE" = some [Tok.num 3] ∧
    effective env "BUTTON_FILL_SHADE" = some [Tok.num 1] ∧
    effective env "BUTTON_PRESSED_SHADE" = some [Tok.num 5] ∧
    effective env "TEXT_COLOR_SHADE" = some [Tok.num 14] ∧
    definition env "TOUCH_INT_PIN" = some [Tok.ident "GPIO_NUM_36"] ∧
    (lookup "GPIO_NUM_36" env = none →
      effective env "TOUCH_INT_PIN" = some [Tok.ident "GPIO_NUM_36"]) ∧
    effective env "SHOW_BATTERY" = some [Tok.num 1] ∧
    effective env "SHOW_DEBUG_CLOCK" = some [Tok.num 1] ∧
    effective env "TWENTYFOUR_HOUR" = some [Tok.num 1] ∧
    effective env "DEBUG_LOGGING" = some [Tok.num 1] ∧
    effective env "ENABLE_BUSINESS_HOURS" = some [Tok.num 1] ∧
    effective env "BUSINESS_HOURS_START" = some [Tok.num 8] ∧
    effective env "BUSINESS_HOURS_END" = some [Tok.num 19] ∧
    effective env "DEEP_SLEEP_WEEKENDS" = some [Tok.num 1] ∧
    effective env "EPD_POWER_OFF_IN_SLEEP" = some [Tok.num 1] ∧
    effective env "EXTPWR_OFF_IN_SLEEP" = some [Tok.num 0] := by
  have lit : ∀ p b, p ∈ configSymbols → lookup p defaults = some b → identsOf b = [] →
      effective env p = some b :=
    fun p b hp hb hl => effective_default env p b (h p hp) hb hl
  have hroom : lookup "ROOM_ID" (applyDefaults defaults env) = some [Tok.str "displaykey"] := by
    rw [lookup_table_default env _ (h _ (by decide))]; rfl
  refine ⟨lit _ _ (by decide) rfl rfl, lit _ _ (by decide) rfl rfl, lit _ _ (by decide) rfl rfl,
    lit _ _ (by decide) rfl rfl, ?_, lit _ _ (by decide) rfl rfl, lit _ _ (by decide) rfl rfl,
    lit _ _ (by decide) rfl rfl, lit _ _ (by decide) rfl rfl, lit _ _ (by decide) rfl rfl,
    lit _ _ (by decide) rfl rfl, lit _ _ (by decide) rfl rfl, lit _ _ (by decide) rfl rfl,
    lit _ _ (by decide) rfl rfl, lit _ _ (by decide) rfl rfl, ?_, ?_, lit _ _ (by decide) rfl rfl,
    lit _ _ (by decide) rfl rfl, lit _ _ (by decide) rfl rfl, lit _ _ (by decide) rfl rfl,
    lit _ _ (by decide) rfl rfl, lit _ _ (by decide) rfl rfl, lit _ _ (by decide) rfl rfl,
    lit _ _ (by decide) rfl rfl, lit _ _ (by decide) rfl rfl, lit _ _ (by decide) rfl rfl⟩
  · exact effective_alias_of_closed env _ (h _ (by decide)) hroom (by simp)
  · rw [definition_eq, lookup_table_default env _ (h _ (by decide))]; rfl
  · exact fun hpin => effective_pin env (h _ (by decide)) hpin

/-- Witness of C1: a build that predefines only the compiler's own macro. -/
theorem defaults_without_overrides_witness :
    NoOverrides [("__GNUC__", [Tok.num 12])] ∧
    effective [("__GNUC__", [Tok.num 12])] "REFRESH_SECONDS" = some [Tok.num 300] ∧
    effective [("__GNUC__", [Tok.num 12])] "SCREEN_ROTATION" = some [Tok.num 90] ∧
    effective [("__GNUC__", [Tok.num 12])] "TOUCH_INT_PIN" = some [Tok.ident "GPIO_NUM_36"] ∧
    effective [("__GNUC__", [Tok.num 12])] "SHOW_BATTERY" = some [Tok.num 1] :=
  have h := defaults_without_overrides [("__GNUC__", [Tok.num 12])] (by decide)
  ⟨by decide, h.2.2.2.2.2.1, h.2.2.2.2.2.2.2.2.2.1,
    h.2.2.2.2.2.2.2.2.2.2.2.2.2.2.2.2.1 (by decide),
    h.2.2.2.2.2.2.2.2.2.2.2.2.2.2.2.2.2.1⟩

/-- C5 as stated fails: a build with `-DSHOW_BATTERY=2` gets the effective
value 2 for the switch `SHOW_BATTERY`, which is neither 0 nor 1. -/
theorem toggles_not_always_boolean :
    ¬ (∀ env : Env, ∀ t ∈ toggles,
        effective env t = some [Tok.num 0] ∨ effective env t = some [Tok.num 1]) := by
  intro h
  have h2 := h [("SHOW_BATTERY", [Tok.num 2])] "SHOW_BATTERY" (by decide)
  revert h2
  decide

/-- C5, amended.  The header does not check overrides.  In every build
environment the effective value of a 0/1 switch is 0 or 1 when the build
leaves the switch undefined or predefines it as 0 or as 1. -/
theorem toggles_boolean_unless_overridden (env : Env) (t : String) (ht : t ∈ toggles)
    (h : lookup t env = none ∨ lookup t env = some [Tok.num 0]
      ∨ lookup t env = some [Tok.num 1]) :
    effective env t = some [Tok.num 0] ∨ effective env t = some [Tok.num 1] := by
  rcases h with h | h | h
  · rcases toggle_defaults t ht with hd | hd
    · exact Or.inl (effective_default env t _ h hd rfl)
    · exact Or.inr (effective_default env t _ h hd rfl)
  · exact Or.inl (effective_predefined env t _ h (by intro x hx; simp at hx; subst hx; rfl))
  · exact Or.inr (effective_predefined env t _ h (by intro x hx; simp at hx; subst hx; rfl))

/-- Witness of C5, amended: a build with `-DDEBUG_LOGGING=0`. -/
theorem toggles_boolean_unless_overridden_witness :
    effective [("DEBUG_LOGGING", [Tok.num 0])] "DEBUG_LOGGING" = some [Tok.num 0] ∨
    effective [("DEBUG_LOGGING", [Tok.num 0])] "DEBUG_LOGGING" = some [Tok.num 1] :=
  toggles_boolean_unless_overridden [("DEBUG_LOGGING", [Tok.num 0])] "DEBUG_LOGGING"
    (by decide) (Or.inr (Or.inl (by decide)))

/-- C7. With no overrides every numeric default lies in its documented domain:
`REFRESH_SECONDS` is positive; `SCREEN_ROTATION` is one of 0, 90, 180, 270;
each of the five shades is at most 15; `BUSINESS_HOURS_START` and
`BUSINESS_HOURS_END` are at most 23 and the start is before the end; every 0/1
switch is 0 or 1. -/
theorem defaults_in_domain (env : Env) (h : NoOverrides env) :
    (∃ n, number env "REFRESH_SECONDS" = some n ∧ 0 < n) ∧
    (∃ r, number env "SCREEN_ROTATION" = some r ∧ r ∈ [0, 90, 180, 270]) ∧
    (∀ s ∈ shades, ∃ n, number env s = some n ∧ n ≤ 15) ∧
    (∃ a b, number env "BUSINESS_HOURS_START" = some a ∧
      number env "BUSINESS_HOURS_END" = some b ∧ a ≤ 23 ∧ b ≤ 23 ∧ a < b) ∧
    (∀ t ∈ toggles, number env t = some 0 ∨ number env t = some 1) := by
  have num : ∀ p n, p ∈ configSymbols → lookup p defaults = some [Tok.num n] →
      number env p = some n :=
    fun p n hp hb => number_default env p n (h p hp) hb
  refine ⟨⟨300, num _ _ (by decide) rfl, by decide⟩, ⟨90, num _ _ (by decide) rfl, by decide⟩,
    ?_, ⟨8, 19, num _ _ (by decide) rfl, num _ _ (by decide) rfl, by decide, by decide,
      by decide⟩, ?_⟩
  · intro s hs
    simp only [shades, List.mem_cons, List.mem_singleton, List.not_mem_nil, or_false] at hs
    rcases hs with rfl | rfl | rfl | rfl | rfl
    · exact ⟨0, num _ _ (by decide) rfl, by decide⟩
    · exact ⟨3, num _ _ (by decide) rfl, by decide⟩
    · exact ⟨1, num _ _ (by decide) rfl, by decide⟩
    · exact ⟨5, num _ _ (by decide) rfl, by decide⟩
    · exact ⟨14, num _ _ (by decide) rfl, by decide⟩
  · intro t ht
    simp only [toggles, List.mem_cons, List.mem_singleton, List.not_mem_nil, or_false] at ht
    rcases ht with rfl | rfl | rfl | rfl | rfl | rfl | rfl | rfl
    · exact Or.inr (num _ _ (by decide) rfl)
    · exact Or.inr (num _ _ (by decide) rfl)
    · exact Or.inr (num _ _ (by decide) rfl)
    · exact Or.inr (num _ _ (by decide) rfl)
    · exact Or.inr (num _ _ (by decide) rfl)
    · exact Or.inr (num _ _ (by decide) rfl)
    · exact Or.inr (num _ _ (by decide) rfl)
    · exact Or.inl (num _ _ (by decide) rfl)

/-- Witness of C7: the build without any predefinition. -/
theorem defaults_in_domain_witness :
    NoOverrides [] ∧ ∃ n, number [] "REFRESH_SECONDS" = some n ∧ 0 < n :=
  ⟨by decide, (defaults_in_domain [] (by decide)).1⟩

/-- C8 as stated fails: the number of 0/1 switches of `Config.h` is not six. -/
theorem toggle_count_not_six : toggleCount ≠ 6 := by
  decide

/-- C8, amended.  `Config.h` has exactly eight 0/1 switches, all of them
symbols of the header: `SHOW_BATTERY`, `SHOW_DEBUG_CLOCK`, `TWENTYFOUR_HOUR`,
`DEBUG_LOGGING`, `ENABLE_BUSINESS_HOURS`, `DEEP_SLEEP_WEEKENDS`,
`EPD_POWER_OFF_IN_SLEEP`, `EXTPWR_OFF_IN_SLEEP`. -/
theorem toggle_count_eight :
    toggleCount = 8 ∧ (configSymbols.filter fun p => decide (p ∈ toggles)) = toggles := by
  decide

/-- C9. Evaluating `Config.h` is idempotent: in every build environment the
header succeeds, and evaluating it again in the table it produced succeeds and
gives that same table. -/
theorem evalConfig_idempotent (env : Env) :
    ∃ e, evalConfig env = .ok e ∧ evalConfig e = .ok e :=
  ⟨applyDefaults defaults env, evalConfig_eq env,
    by rw [evalConfig_eq, applyDefaults_idem]⟩

/-- C10. With no overrides the default palette is ordered: the text shade is
darker than each of the two backgrounds and the two button shades, the pressed
button is darker than the button fill, and the occupied background is darker
than the available one. -/
theorem default_palette_ordered (env : Env) (h : NoOverrides env) :
    ∃ avail occ fill pressed text,
      number env "AVAILABLE_BG_SHADE" = some avail ∧
      number env "OCCUPIED_BG_SHADE" = some occ ∧
      number env "BUTTON_FILL_SHADE" = some fill ∧
      number env "BUTTON_PRESSED_SHADE" = some pressed ∧
      number env "TEXT_COLOR_SHADE" = some text ∧
      avail < text ∧ occ < text ∧ fill < text ∧ pressed < text ∧
      fill < pressed ∧ avail < occ := by
  have num : ∀ p n, p ∈ configSymbols → lookup p defaults = some [Tok.num n] →
      number env p = some n :=
    fun p n hp hb => number_default env p n (h p hp) hb
  exact ⟨0, 3, 1, 5, 14, num _ _ (by decide) rfl, num _ _ (by decide) rfl,
    num _ _ (by decide) rfl, num _ _ (by decide) rfl, num _ _ (by decide) rfl,
    by decide, by decide, by decide, by decide, by decide, by decide⟩

/-- Witness of C10: the build without any predefinition. -/
theorem default_palette_ordered_witness :
    NoOverrides [] ∧
    ∃ avail occ fill pressed text,
      number [] "AVAILABLE_BG_SHADE" = some avail ∧
      number [] "OCCUPIED_BG_SHADE" = some occ ∧
      number [] "BUTTON_FILL_SHADE" = some fill ∧
      number [] "BUTTON_PRESSED_SHADE" = some pressed ∧
      number [] "TEXT_COLOR_SHADE" = some text ∧
      avail < text ∧ occ < text ∧ fill < text ∧ pressed < text ∧
      fill < pressed ∧ avail < occ :=
  ⟨by decide, default_palette_ordered [] (by decide)⟩

end Config
